import Mathlib

/-!
Shallow embedding of the stock-prediction backend (backend/app.py).

The observation store (SQLite table stock_prices) is modelled as a list of
rows in insertion order; prices are modelled as exact rationals and the
2-decimal rounding step (Python round(x, 2)) as decimal round-half-to-even
on rationals.  SQLite semantics that matter here: UNIQUE(ticker, date)
together with INSERT OR IGNORE / INSERT OR REPLACE conflict resolution,
ORDER BY date DESC (byte-wise string comparison), and LIMIT n where a
negative n disables the limit and 0 yields no rows.
-/

namespace StockApp

/-- One row of the stock_prices table: (ticker, date, price).  The surrogate
id column only fixes insertion order, which the list order models. -/
structure Row where
  ticker : String
  date : String
  price : ℚ
deriving DecidableEq

/-- The stock_prices table, in insertion order. -/
abbrev Store := List Row

/-- Python str.upper() for the ASCII tickers this service handles: each
character is mapped through Char.toUpper. -/
def pyUpper (s : String) : String :=
  ⟨s.data.map Char.toUpper⟩

/-- Does a row have the given (ticker, date) key?  Used by the UNIQUE
constraint and by conflict resolution. -/
def rowKeyMatches (t d : String) (r : Row) : Bool :=
  r.ticker == t && r.date == d

/-- INSERT OR IGNORE INTO stock_prices (ticker, date, price): inserts the row
unless a row with the same (ticker, date) key exists, in which case the
statement is a no-op (app.py lines 46-50, the init_db seeding loop). -/
def upsertIfAbsent (s : Store) (t d : String) (p : ℚ) : Store :=
  if s.any (rowKeyMatches t d) then s else s ++ [⟨t, d, p⟩]

/-- INSERT OR REPLACE INTO stock_prices (ticker, date, price): deletes any row
with the same (ticker, date) key, then inserts the new row at the end. -/
def sqlReplace (s : Store) (t d : String) (p : ℚ) : Store :=
  s.filter (fun r => !(rowKeyMatches t d r)) ++ [⟨t, d, p⟩]

/-- The add_price write (app.py add_stock_price, lines 196-199): the ticker is
upper-cased before the INSERT OR REPLACE statement runs. -/
def upsertReplace (s : Store) (t d : String) (p : ℚ) : Store :=
  sqlReplace s (pyUpper t) d p

/-- The seed rows inserted by init_db (app.py lines 31-44). -/
def sample_data : List (String × String × ℚ) :=
  [("AAPL", "2024-10-01", 150.25),
   ("AAPL", "2024-10-02", 152.30),
   ("AAPL", "2024-10-03", 148.75),
   ("AAPL", "2024-10-04", 151.20),
   ("GOOGL", "2024-10-01", 2750.50),
   ("GOOGL", "2024-10-02", 2780.25),
   ("GOOGL", "2024-10-03", 2765.75),
   ("GOOGL", "2024-10-04", 2790.30),
   ("TSLA", "2024-10-01", 245.80),
   ("TSLA", "2024-10-02", 248.90),
   ("TSLA", "2024-10-03", 242.15),
   ("TSLA", "2024-10-04", 250.45)]

/-- init_db (app.py lines 14-53): create the table if needed and insert the
seed rows with INSERT OR IGNORE, in order. -/
def init_db (s : Store) : Store :=
  sample_data.foldl (fun acc x => upsertIfAbsent acc x.1 x.2.1 x.2.2) s

/-- The store produced by running init_db on an empty database. -/
def seededStore : Store :=
  init_db []

/-- WHERE ticker = t: the rows of the table whose ticker equals t, in table
order. -/
def selectTicker (s : Store) (t : String) : List Row :=
  s.filter (fun r => r.ticker == t)

/-- ORDER BY date DESC: the second argument goes no later than the first. -/
def dateDesc (a b : Row) : Prop :=
  b.date ≤ a.date

instance : DecidableRel dateDesc :=
  fun a b => inferInstanceAs (Decidable (b.date ≤ a.date))

/-- Sorting a result set by date descending. -/
def sortByDateDesc (l : List Row) : List Row :=
  l.insertionSort dateDesc

/-- LIMIT n in SQLite: a negative n means no limit, otherwise at most n rows
are returned. -/
def limitRows (n : Int) (l : List Row) : List Row :=
  if n < 0 then l else l.take n.toNat

/-- The row set produced by SELECT ... WHERE ticker = upper(t) ORDER BY date
DESC LIMIT days, shared by get_historical_prices and the historical route. -/
def getRecentRows (s : Store) (ticker : String) (days : Int) : List Row :=
  limitRows days (sortByDateDesc (selectTicker s (pyUpper ticker)))

/-- get_historical_prices (app.py lines 55-70): the prices of the up-to-days
most recent rows for the upper-cased ticker, most recent first. -/
def get_historical_prices (s : Store) (ticker : String) (days : Int) : List ℚ :=
  (getRecentRows s ticker days).map (fun r => r.price)

/-- calculate_moving_average (app.py lines 72-76): 0.0 on an empty list, else
the arithmetic mean. -/
def calculate_moving_average (prices : List ℚ) : ℚ :=
  if prices.isEmpty then 0 else prices.sum / (prices.length : ℚ)

/-- Round-half-to-even to the nearest integer, the semantics of Python round
on the exact values handled here. -/
def roundHalfEven (q : ℚ) : ℤ :=
  if q - (⌊q⌋ : ℚ) < 1/2 then ⌊q⌋
  else if 1/2 < q - (⌊q⌋ : ℚ) then ⌊q⌋ + 1
  else if ⌊q⌋ % 2 = 0 then ⌊q⌋ else ⌊q⌋ + 1

/-- Python round(x, 2): round-half-to-even at 2 decimal digits. -/
def round2 (q : ℚ) : ℚ :=
  (roundHalfEven (q * 100) : ℚ) / 100

/-- The dictionary returned by predict_stock_price, with absent keys modelled
as none. -/
structure PredictResult where
  ticker : String
  error : Option String
  prediction : Option ℚ
  historical_prices : Option (List ℚ)
  moving_average : Option ℚ
  method : Option String
  confidence : Option String
deriving DecidableEq

/-- The error message of the insufficient-data result (app.py line 89). -/
def insufficientMsg (ticker : String) : String :=
  "Insufficient data for " ++ ticker ++ ". Need at least 3 days of historical data."

/-- The insufficient-data result (app.py lines 88-92): error message, the
ticker echoed exactly as passed, and a null prediction. -/
def insufficientResult (ticker : String) : PredictResult :=
  ⟨ticker, some (insufficientMsg ticker), none, none, none, none, none⟩

/-- predict_stock_price (app.py lines 78-120): fetch the 3 most recent prices;
with fewer than 3, return the insufficient-data result; otherwise return the
rounded moving average and trend-adjusted prediction. -/
def predict_stock_price (s : Store) (ticker : String) : PredictResult :=
  let historical_prices := get_historical_prices s ticker 3
  if historical_prices.length < 3 then
    insufficientResult ticker
  else
    let moving_avg := calculate_moving_average historical_prices
    let predicted_price :=
      if 2 ≤ historical_prices.length then
        moving_avg + (historical_prices.getD 0 0 - historical_prices.getD 1 0) * 0.1
      else moving_avg
    ⟨pyUpper ticker, none, some (round2 predicted_price), some historical_prices,
      some (round2 moving_avg),
      some "Moving Average (3-day) with Trend Adjustment",
      some "Medium (Rule-based prediction)"⟩

/-- The payload of the historical route. -/
structure HistoricalResult where
  ticker : String
  historical_data : List (String × ℚ)
  count : ℕ
deriving DecidableEq

/-- get_historical_data (app.py lines 155-178): the days query parameter
defaults to 10 when absent; the response carries the upper-cased ticker, the
(date, price) rows most recent first, and their count. -/
def get_historical_data (s : Store) (ticker : String) (days : Option Int) : HistoricalResult :=
  let d := days.getD 10
  let rows := (getRecentRows s ticker d).map (fun r => (r.date, r.price))
  ⟨pyUpper ticker, rows, rows.length⟩

/-- Reading the stored price of one (ticker, date) key, none when absent. -/
def readPrice (s : Store) (t d : String) : Option ℚ :=
  (s.find? (rowKeyMatches t d)).map (fun r => r.price)

/-- The SQL statements an endpoint can execute against the store. -/
inductive DbStmt where
  | selectPrices (ticker : String) (days : Int)
  | selectDates (ticker : String) (days : Int)
  | selectTickers
  | insertOrIgnore (ticker date : String) (price : ℚ)
  | insertOrReplace (ticker date : String) (price : ℚ)

/-- Effect of one statement on the table: SELECT statements leave it
unchanged, the two INSERT forms write as defined above. -/
def DbStmt.exec (s : Store) : DbStmt → Store
  | .insertOrIgnore t d p => upsertIfAbsent s t d p
  | .insertOrReplace t d p => sqlReplace s t d p
  | _ => s

/-- Effect of a statement sequence on the table. -/
def execStmts (s : Store) (ops : List DbStmt) : Store :=
  ops.foldl DbStmt.exec s

/-- The statements one predict_stock_price call executes: a single SELECT of
up to 3 prices for the upper-cased ticker (app.py line 85 via lines 60-65). -/
def predictTrace (ticker : String) : List DbStmt :=
  [DbStmt.selectPrices (pyUpper ticker) 3]

/-- Well-formedness of the store: the UNIQUE(ticker, date) constraint holds
and every stored ticker is canonically upper-cased. -/
def goodStore (s : Store) : Prop :=
  List.Pairwise (fun r1 r2 => r1.ticker ≠ r2.ticker ∨ r1.date ≠ r2.date) s ∧
    ∀ r ∈ s, pyUpper r.ticker = r.ticker

/-! Helper lemmas about upper-casing, the recency query and the writes. -/

theorem char_toNat_ofNat_valid {n : Nat} (h : n.isValidChar) : (Char.ofNat n).toNat = n := by
  rw [Char.ofNat, dif_pos h]
  simp [Char.ofNatAux, Char.toNat, UInt32.toNat]

theorem char_toUpper_idem (c : Char) : c.toUpper.toUpper = c.toUpper := by
  unfold Char.toUpper
  by_cases h : c.toNat ≥ 97 ∧ c.toNat ≤ 122
  · rw [if_pos h]
    have hv : (c.toNat - 32).isValidChar := Or.inl (by omega)
    rw [char_toNat_ofNat_valid hv]
    rw [if_neg (by omega)]
  · rw [if_neg h, if_neg h]

theorem mapToUpper_idem (l : List Char) :
    (l.map Char.toUpper).map Char.toUpper = l.map Char.toUpper := by
  induction l with
  | nil => rfl
  | cons c cs ih => simp only [List.map_cons, ih, char_toUpper_idem]

theorem pyUpper_idem (s : String) : pyUpper (pyUpper s) = pyUpper s := by
  unfold pyUpper
  exact congrArg String.mk (mapToUpper_idem s.data)

instance : IsTotal Row dateDesc :=
  ⟨fun a b => le_total b.date a.date⟩

instance : IsTrans Row dateDesc :=
  ⟨fun _ _ _ hab hbc => le_trans hbc hab⟩

theorem length_sortByDateDesc (l : List Row) : (sortByDateDesc l).length = l.length :=
  (List.perm_insertionSort dateDesc l).length_eq

theorem sorted_sortByDateDesc (l : List Row) : (sortByDateDesc l).Sorted dateDesc :=
  List.sorted_insertionSort dateDesc l

theorem perm_sortByDateDesc (l : List Row) : (sortByDateDesc l).Perm l :=
  List.perm_insertionSort dateDesc l

theorem length_getRecentRows (s : Store) (t : String) (n : ℕ) :
    (getRecentRows s t (n : ℤ)).length = min ((selectTicker s (pyUpper t)).length) n := by
  unfold getRecentRows limitRows
  rw [if_neg (by omega)]
  rw [Int.toNat_ofNat, List.length_take, length_sortByDateDesc, Nat.min_comm]

theorem length_get_historical_prices (s : Store) (t : String) (n : ℕ) :
    (get_historical_prices s t (n : ℤ)).length = min ((selectTicker s (pyUpper t)).length) n := by
  rw [get_historical_prices, List.length_map, length_getRecentRows]

theorem length_hist3 (s : Store) (t : String) :
    (get_historical_prices s t 3).length = min ((selectTicker s (pyUpper t)).length) 3 := by
  have h := length_get_historical_prices s t 3
  norm_num at h
  exact h

theorem predict_insufficient (s : Store) (t : String)
    (h : (get_historical_prices s t 3).length < 3) :
    predict_stock_price s t = insufficientResult t := by
  unfold predict_stock_price
  rw [if_pos h]

theorem predict_error_none (s : Store) (t : String)
    (h : ¬ (get_historical_prices s t 3).length < 3) :
    (predict_stock_price s t).error = none := by
  unfold predict_stock_price
  rw [if_neg h]

theorem roundHalfEven_tie (m : ℤ) :
    roundHalfEven ((m : ℚ) + 1/2) = if m % 2 = 0 then m else m + 1 := by
  have hf : ⌊(m : ℚ) + 1/2⌋ = m := by
    rw [Int.floor_eq_iff]
    constructor
    · linarith
    · linarith
  rw [roundHalfEven, hf]
  norm_num

set_option linter.unusedTactic false in
theorem roundHalfEven_near (q : ℚ) : |q - (roundHalfEven q : ℚ)| ≤ 1/2 := by
  have h1 : (⌊q⌋ : ℚ) ≤ q := Int.floor_le q
  have h2 : q < ⌊q⌋ + 1 := Int.lt_floor_add_one q
  rw [roundHalfEven]
  split_ifs with hlt hgt hev <;>
    (rw [abs_le]; push_cast; constructor <;> linarith)

theorem hist_aapl : get_historical_prices seededStore "AAPL" 3 = [151.2, 148.75, 152.3] := by
  simp +decide [get_historical_prices, seededStore, init_db, sample_data, upsertIfAbsent,
        rowKeyMatches, getRecentRows, selectTicker, pyUpper, sortByDateDesc, limitRows, dateDesc,
        List.insertionSort, List.orderedInsert]
  norm_num

theorem upsertIfAbsent_present (s : Store) (t d : String) (p : ℚ)
    (h : s.any (rowKeyMatches t d) = true) : upsertIfAbsent s t d p = s := by
  unfold upsertIfAbsent
  rw [if_pos h]

theorem upsertIfAbsent_twice (s : Store) (t d : String) (p p' : ℚ) :
    upsertIfAbsent (upsertIfAbsent s t d p) t d p' = upsertIfAbsent s t d p := by
  by_cases h : s.any (rowKeyMatches t d) = true
  · rw [upsertIfAbsent_present s t d p h, upsertIfAbsent_present s t d p' h]
  · unfold upsertIfAbsent
    rw [if_neg h, if_pos (by simp [rowKeyMatches])]

theorem upsertReplace_read (s : Store) (t d : String) (p : ℚ) :
    readPrice (upsertReplace s t d p) (pyUpper t) d = some p := by
  unfold readPrice upsertReplace sqlReplace
  rw [List.find?_append]
  have h1 : (s.filter fun r => !(rowKeyMatches (pyUpper t) d r)).find?
      (rowKeyMatches (pyUpper t) d) = none := by
    rw [List.find?_eq_none]
    intro x hx
    simp only [List.mem_filter, Bool.not_eq_true'] at hx
    simp [hx.2]
  rw [h1]
  simp [rowKeyMatches]

theorem upsertReplace_rows (s : Store) (t d : String) (p : ℚ) :
    (upsertReplace s t d p).filter (rowKeyMatches (pyUpper t) d) = [⟨pyUpper t, d, p⟩] := by
  unfold upsertReplace sqlReplace
  rw [List.filter_append, List.filter_filter]
  simp [rowKeyMatches]

theorem key_ne_of_not_match {t d : String} {a : Row} (h : rowKeyMatches t d a = false) :
    a.ticker ≠ t ∨ a.date ≠ d := by
  by_cases h1 : a.ticker = t
  · by_cases h2 : a.date = d
    · rw [rowKeyMatches, h1, h2] at h
      simp at h
    · exact Or.inr h2
  · exact Or.inl h1

theorem any_eq_false_key (s : Store) (t d : String) (h : ¬ s.any (rowKeyMatches t d) = true)
    (a : Row) (ha : a ∈ s) : a.ticker ≠ t ∨ a.date ≠ d := by
  simp only [List.any_eq_true, not_exists, not_and] at h
  exact key_ne_of_not_match (Bool.eq_false_iff.mpr (h a ha))

theorem upsertIfAbsent_good (s : Store) (t d : String) (p : ℚ) (ht : pyUpper t = t)
    (hs : goodStore s) : goodStore (upsertIfAbsent s t d p) := by
  unfold upsertIfAbsent
  split_ifs with h
  · exact hs
  · obtain ⟨hpw, hup⟩ := hs
    constructor
    · rw [List.pairwise_append]
      refine ⟨hpw, List.pairwise_singleton _ _, ?_⟩
      intro a ha b hb
      simp only [List.mem_singleton] at hb
      subst hb
      exact any_eq_false_key s t d h a ha
    · intro r hr
      rcases List.mem_append.mp hr with h1 | h1
      · exact hup r h1
      · simp only [List.mem_singleton] at h1
        subst h1
        exact ht

theorem sqlReplace_good (s : Store) (t d : String) (p : ℚ) (ht : pyUpper t = t)
    (hs : goodStore s) : goodStore (sqlReplace s t d p) := by
  obtain ⟨hpw, hup⟩ := hs
  constructor
  · rw [sqlReplace, List.pairwise_append]
    refine ⟨hpw.sublist (List.filter_sublist s), List.pairwise_singleton _ _, ?_⟩
    intro a ha b hb
    simp only [List.mem_singleton] at hb
    subst hb
    simp only [List.mem_filter, Bool.not_eq_true'] at ha
    exact key_ne_of_not_match ha.2
  · intro r hr
    rw [sqlReplace] at hr
    rcases List.mem_append.mp hr with h1 | h1
    · exact hup r (List.mem_of_mem_filter h1)
    · simp only [List.mem_singleton] at h1
      subst h1
      exact ht

theorem upsertReplace_good (s : Store) (t d : String) (p : ℚ) (hs : goodStore s) :
    goodStore (upsertReplace s t d p) :=
  sqlReplace_good s (pyUpper t) d p (pyUpper_idem t) hs

theorem foldl_upsert_good (l : List (String × String × ℚ)) (s : Store)
    (hl : ∀ x ∈ l, pyUpper x.1 = x.1) (hs : goodStore s) :
    goodStore (l.foldl (fun acc x => upsertIfAbsent acc x.1 x.2.1 x.2.2) s) := by
  induction l generalizing s with
  | nil => exact hs
  | cons x xs ih =>
      rw [List.foldl_cons]
      exact ih _ (fun y hy => hl y (List.mem_cons_of_mem x hy))
        (upsertIfAbsent_good s x.1 x.2.1 x.2.2 (hl x (List.mem_cons_self x xs)) hs)

theorem init_db_good (s : Store) (hs : goodStore s) : goodStore (init_db s) :=
  foldl_upsert_good sample_data s (by decide) hs

/-! The claim theorems. -/

/-- C1: on the seeded store (AAPL observations 2024-10-01 at 150.25, 10-02 at
152.30, 10-03 at 148.75, 10-04 at 151.20), predict on AAPL returns a moving
average of 150.75, a prediction of 151.0, and historical prices
[151.2, 148.75, 152.3], most recent first. -/
theorem c1_seeded_aapl_prediction :
    (predict_stock_price seededStore "AAPL").moving_average = some 150.75 ∧
    (predict_stock_price seededStore "AAPL").prediction = some 151.0 ∧
    (predict_stock_price seededStore "AAPL").historical_prices
      = some [151.2, 148.75, 152.3] := by
  have h1 : ⌊(150.75 * 100 : ℚ)⌋ = 15075 := by
    rw [Int.floor_eq_iff]
    norm_num
  have h2 : ⌊((150.75 + (151.2 - 148.75) * 0.1) * 100 : ℚ)⌋ = 15099 := by
    rw [Int.floor_eq_iff]
    norm_num
  have h3 : Int.fract ((30199 : ℚ) / 2) = 1 / 2 := by
    have h4 : ⌊((30199 : ℚ) / 2)⌋ = 15099 := by
      rw [Int.floor_eq_iff]
      norm_num
    rw [Int.fract, h4]
    norm_num
  rw [predict_stock_price, hist_aapl]
  simp +decide [calculate_moving_average, pyUpper, round2, roundHalfEven]
  norm_num [h1, h2]
  norm_num [h3]

/-- C2: whenever the 3-most-recent query returns [p0, p1, p2] (p0 most
recent), predict returns movingAverage = round2 of (p0+p1+p2)/3 and
prediction = round2 of (p0+p1+p2)/3 + (p0-p1)*0.1, where round2 rounds half
to even at 2 decimal digits: exact integer-plus-half arguments round to the
even neighbour and the result is never further than 1/2 from the argument
(on the 2-decimal scale). -/
theorem c2_predict_formula (s : Store) (t : String) (p0 p1 p2 : ℚ)
    (h : get_historical_prices s t 3 = [p0, p1, p2]) :
    ((predict_stock_price s t).moving_average = some (round2 ((p0 + p1 + p2) / 3)) ∧
     (predict_stock_price s t).prediction
       = some (round2 ((p0 + p1 + p2) / 3 + (p0 - p1) * 0.1))) ∧
    (∀ m : ℤ, roundHalfEven ((m : ℚ) + 1/2) = if m % 2 = 0 then m else m + 1) ∧
    (∀ q : ℚ, |q - (roundHalfEven q : ℚ)| ≤ 1/2) := by
  refine ⟨?_, roundHalfEven_tie, roundHalfEven_near⟩
  unfold predict_stock_price
  rw [h]
  norm_num [calculate_moving_average]
  constructor
  · congr 1
    congr 1
    ring
  · congr 1
    congr 1
    ring

/-- Witness for C2 at the seeded store and ticker AAPL. -/
theorem c2_predict_formula_witness :
    get_historical_prices seededStore "AAPL" 3 = [151.2, 148.75, 152.3] ∧
    (((predict_stock_price seededStore "AAPL").moving_average
        = some (round2 ((151.2 + 148.75 + 152.3) / 3)) ∧
      (predict_stock_price seededStore "AAPL").prediction
        = some (round2 ((151.2 + 148.75 + 152.3) / 3 + (151.2 - 148.75) * 0.1))) ∧
     (∀ m : ℤ, roundHalfEven ((m : ℚ) + 1/2) = if m % 2 = 0 then m else m + 1) ∧
     (∀ q : ℚ, |q - (roundHalfEven q : ℚ)| ≤ 1/2)) :=
  ⟨hist_aapl, c2_predict_formula seededStore "AAPL" 151.2 148.75 152.3 hist_aapl⟩

/-- C3: predict returns the insufficient-data error result exactly when the
store holds fewer than 3 observations for the normalized ticker; that result
carries the error message, a null prediction and the ticker echoed exactly as
passed (see insufficientResult). -/
theorem c3_insufficient_iff (s : Store) (t : String) :
    predict_stock_price s t = insufficientResult t
      ↔ (selectTicker s (pyUpper t)).length < 3 := by
  rw [← not_iff_not]
  constructor
  · intro hne hlt
    exact hne (predict_insufficient s t (by rw [length_hist3]; omega))
  · intro hge heq
    have herr : (predict_stock_price s t).error = none :=
      predict_error_none s t (by rw [length_hist3]; omega)
    rw [heq] at herr
    simp [insufficientResult] at herr

/-- C4: on a key already present, upsertIfAbsent with a different price is a
no-op (so two successive upsertIfAbsent calls keep the first price), while
upsertReplace leaves the new row as the only row of that key and the next
read of the key returns the new price. -/
theorem c4_upsert_replace_semantics (s : Store) (t d : String) (p p' : ℚ)
    (h : s.any (rowKeyMatches t d) = true) :
    upsertIfAbsent s t d p' = s ∧
    upsertIfAbsent (upsertIfAbsent s t d p) t d p' = upsertIfAbsent s t d p ∧
    readPrice (upsertReplace s t d p) (pyUpper t) d = some p ∧
    (upsertReplace s t d p).filter (rowKeyMatches (pyUpper t) d) = [⟨pyUpper t, d, p⟩] :=
  ⟨upsertIfAbsent_present s t d p' h, upsertIfAbsent_twice s t d p p',
   upsertReplace_read s t d p, upsertReplace_rows s t d p⟩

/-- Witness for C4 at a one-row store holding (AAPL, 2024-10-01, 150.25). -/
theorem c4_upsert_replace_semantics_witness :
    ([⟨"AAPL", "2024-10-01", 150.25⟩] : Store).any (rowKeyMatches "AAPL" "2024-10-01") = true ∧
    (upsertIfAbsent [⟨"AAPL", "2024-10-01", 150.25⟩] "AAPL" "2024-10-01" 152
        = [⟨"AAPL", "2024-10-01", 150.25⟩] ∧
     upsertIfAbsent (upsertIfAbsent [⟨"AAPL", "2024-10-01", 150.25⟩] "AAPL" "2024-10-01" 151)
          "AAPL" "2024-10-01" 152
        = upsertIfAbsent [⟨"AAPL", "2024-10-01", 150.25⟩] "AAPL" "2024-10-01" 151 ∧
     readPrice (upsertReplace [⟨"AAPL", "2024-10-01", 150.25⟩] "AAPL" "2024-10-01" 151)
          (pyUpper "AAPL") "2024-10-01" = some 151 ∧
     (upsertReplace [⟨"AAPL", "2024-10-01", 150.25⟩] "AAPL" "2024-10-01" 151).filter
          (rowKeyMatches (pyUpper "AAPL") "2024-10-01")
        = [⟨pyUpper "AAPL", "2024-10-01", 151⟩]) :=
  ⟨by decide,
   c4_upsert_replace_semantics [⟨"AAPL", "2024-10-01", 150.25⟩] "AAPL" "2024-10-01" 151 152
     (by decide)⟩

/-- C5: starting from a well-formed store, both the seeding write (init_db,
insert-if-absent) and the externally triggered insert-or-replace preserve the
invariant: at most one observation per (ticker, date) and every stored ticker
upper-case. -/
theorem c5_write_invariants (s : Store) (t d : String) (p : ℚ) (hs : goodStore s) :
    goodStore (init_db s) ∧ goodStore (upsertReplace s t d p) :=
  ⟨init_db_good s hs, upsertReplace_good s t d p hs⟩

/-- Witness for C5 at the empty store. -/
theorem c5_write_invariants_witness :
    goodStore ([] : Store) ∧
    (goodStore (init_db []) ∧ goodStore (upsertReplace [] "aapl" "2024-10-05" 1)) :=
  ⟨by simp [goodStore], c5_write_invariants [] "aapl" "2024-10-05" 1 (by simp [goodStore])⟩

/-- C6: for a ticker with at least 3 stored observations, predict on any
spelling equals predict on the upper-cased spelling, and the returned ticker
field is the canonical upper-case form. -/
theorem c6_case_insensitive (s : Store) (t : String)
    (h : 3 ≤ (selectTicker s (pyUpper t)).length) :
    predict_stock_price s t = predict_stock_price s (pyUpper t) ∧
    (predict_stock_price s t).ticker = pyUpper t := by
  have hq : get_historical_prices s (pyUpper t) 3 = get_historical_prices s t 3 := by
    unfold get_historical_prices getRecentRows
    rw [pyUpper_idem]
  have hlen : ¬ (get_historical_prices s t 3).length < 3 := by
    rw [length_hist3]
    omega
  constructor
  · unfold predict_stock_price
    rw [hq, if_neg hlen, if_neg hlen, pyUpper_idem]
  · unfold predict_stock_price
    rw [if_neg hlen]

/-- Witness for C6 at the seeded store with the lower-case spelling aapl. -/
theorem c6_case_insensitive_witness :
    3 ≤ (selectTicker seededStore (pyUpper "aapl")).length ∧
    (predict_stock_price seededStore "aapl" = predict_stock_price seededStore (pyUpper "aapl") ∧
     (predict_stock_price seededStore "aapl").ticker = pyUpper "aapl") :=
  ⟨by decide, c6_case_insensitive seededStore "aapl" (by decide)⟩

/-- C7: the recency query never errors: for every ticker and every natural n
it returns min(stored, n) prices, the underlying rows are ordered by date
descending, and when the ticker has at most n observations the result is
exactly the stored observations (possibly none). -/
theorem c7_getRecent_bounds (s : Store) (t : String) (n : ℕ) :
    (get_historical_prices s t (n : ℤ)).length = min ((selectTicker s (pyUpper t)).length) n ∧
    List.Sorted dateDesc (getRecentRows s t (n : ℤ)) ∧
    ((selectTicker s (pyUpper t)).length ≤ n →
      (getRecentRows s t (n : ℤ)).Perm (selectTicker s (pyUpper t))) := by
  refine ⟨length_get_historical_prices s t n, ?_, ?_⟩
  · unfold getRecentRows limitRows
    rw [if_neg (by omega)]
    exact List.Pairwise.sublist (List.take_sublist _ _) (sorted_sortByDateDesc _)
  · intro hle
    unfold getRecentRows limitRows
    rw [if_neg (by omega), Int.toNat_ofNat]
    rw [List.take_of_length_le (by rw [length_sortByDateDesc]; exact hle)]
    exact perm_sortByDateDesc _

/-- Witness for C7 at the seeded store, ticker aapl, n = 10 (more than the 4
stored AAPL rows). -/
theorem c7_getRecent_bounds_witness :
    (getRecentRows seededStore "aapl" ((10 : ℕ) : ℤ)).Perm
      (selectTicker seededStore (pyUpper "aapl")) :=
  (c7_getRecent_bounds seededStore "aapl" 10).2.2 (by decide)

/-- C8: the historical query with days larger than the stored count returns
exactly all stored (date, price) rows for the ticker; an absent days
parameter defaults to 10; and the count field always equals the length of the
returned row list. -/
theorem c8_historical_all_rows (s : Store) (t : String) (d : ℤ) :
    (((selectTicker s (pyUpper t)).length : ℤ) < d →
      (get_historical_data s t (some d)).historical_data.Perm
        ((selectTicker s (pyUpper t)).map (fun r => (r.date, r.price)))) ∧
    get_historical_data s t none = get_historical_data s t (some 10) ∧
    (get_historical_data s t (some d)).count
      = (get_historical_data s t (some d)).historical_data.length := by
  refine ⟨?_, rfl, rfl⟩
  intro hlt
  unfold get_historical_data getRecentRows limitRows
  simp only [Option.getD_some]
  rw [if_neg (by omega)]
  rw [List.take_of_length_le (by rw [length_sortByDateDesc]; omega)]
  exact (perm_sortByDateDesc _).map _

/-- Witness for C8 at the seeded store, ticker aapl, days = 10 (more than the
4 stored AAPL rows). -/
theorem c8_historical_all_rows_witness :
    (get_historical_data seededStore "aapl" (some 10)).historical_data.Perm
      ((selectTicker seededStore (pyUpper "aapl")).map (fun r => (r.date, r.price))) :=
  (c8_historical_all_rows seededStore "aapl" 10).1 (by decide)

/-- C9: predict only executes a SELECT, so any number of predict calls leaves
the store exactly as it was, and the result still equals predict on the
original store. -/
theorem c9_predict_stateless (s : Store) (t : String) (k : ℕ) :
    (List.replicate k (predictTrace t)).foldl execStmts s = s ∧
    predict_stock_price ((List.replicate k (predictTrace t)).foldl execStmts s) t
      = predict_stock_price s t := by
  have h : (List.replicate k (predictTrace t)).foldl execStmts s = s := by
    induction k with
    | zero => rfl
    | succ n ih =>
        rw [List.replicate_succ, List.foldl_cons]
        exact ih
  exact ⟨h, by rw [h]⟩

/-- C10: the historical query accepts every integer days value: a negative
value disables the limit and returns all stored rows for the ticker in
date-descending order, and days = 0 returns no rows with count 0. -/
theorem c10_negative_and_zero_days (s : Store) (t : String) (d : ℤ) :
    (d < 0 → (get_historical_data s t (some d)).historical_data
        = (sortByDateDesc (selectTicker s (pyUpper t))).map (fun r => (r.date, r.price))) ∧
    (get_historical_data s t (some 0)).historical_data = [] ∧
    (get_historical_data s t (some 0)).count = 0 := by
  refine ⟨?_, rfl, rfl⟩
  intro hneg
  unfold get_historical_data getRecentRows limitRows
  simp only [Option.getD_some]
  rw [if_pos hneg]

/-- Witness for C10 at the seeded store, ticker aapl, days = -1. -/
theorem c10_negative_and_zero_days_witness :
    (get_historical_data seededStore "aapl" (some (-1))).historical_data
      = (sortByDateDesc (selectTicker seededStore (pyUpper "aapl"))).map
          (fun r => (r.date, r.price)) :=
  (c10_negative_and_zero_days seededStore "aapl" (-1)).1 (by decide)

end StockApp
